import Mathlib

/-!
Verification of the persistence binding surface of
`nautilus_trader/core/includes/persistence.h`.

The header declares the exported-vector types `Vec_QuoteTick` / `Vec_Bar`
(buffer pointer, `len`, `cap`, all `uintptr_t`-sized) and four functions:
`read_parquet_ticks`, `read_parquet_bars` (columnar decode into an exported
vector) and `index_quote_tick_vector`, `index_bar_vector` (bounds-checked
read-only indexing, taking a `const` vector pointer and an unsigned
`uintptr_t` index, returning a `const` record pointer).  The bodies of the
decoder and exporter are not part of the tree, so they are modelled from the
specification; the type-level facts (unsigned index, `const` access, the
(ptr, len, cap) triple) come from the header itself.
-/

namespace Persistence

/-- A column name as referenced by a filter expression or a record layout. -/
inductive Column where
  | t
  | p
  | other (name : String)
deriving DecidableEq, Repr

/-- The type of a column. -/
inductive ColType where
  | cInt
  | cFloat
deriving DecidableEq, Repr

/-- A concrete column value carried by a filter or read from a record. -/
inductive Value where
  | vInt (n : Int)
  | vFloat (q : Rat)
deriving DecidableEq, Repr

/-- The type of a value. -/
def Value.ctype : Value → ColType
  | .vInt _ => .cInt
  | .vFloat _ => .cFloat

/-- Strict order on values of the same type; values of different types are
incomparable. -/
def Value.ltv : Value → Value → Bool
  | .vInt a, .vInt b => a < b
  | .vFloat a, .vFloat b => a < b
  | _, _ => false

/-- Modelled from the spec: the decoder bodies behind `read_parquet_ticks` /
`read_parquet_bars` are absent from the tree; the spec fixes a small closed
set of predicate variants (equality, range, membership, conjunction) as the
filter representation the host maps its expression trees onto. -/
inductive FilterExpr where
  | feq (c : Column) (v : Value)
  | fgt (c : Column) (v : Value)
  | flt (c : Column) (v : Value)
  | fmember (c : Column) (vs : List Value)
  | fand (a b : FilterExpr)
deriving DecidableEq, Repr

/-- The fixed-layout record schema for one record type: which columns exist,
their types, and how to read a column from a record. -/
structure RecordLayout (α : Type) where
  colType : Column → Option ColType
  colVal : α → Column → Option Value

/-- A filter is well typed for a layout when every column it references is
present in the schema with the type of the compared value. -/
def FilterExpr.wellTyped (L : RecordLayout α) : FilterExpr → Bool
  | .feq c v => L.colType c == some v.ctype
  | .fgt c v => L.colType c == some v.ctype
  | .flt c v => L.colType c == some v.ctype
  | .fmember c vs => vs.all fun v => L.colType c == some v.ctype
  | .fand a b => a.wellTyped L && b.wellTyped L

/-- Evaluate one filter expression against one record. -/
def FilterExpr.eval (L : RecordLayout α) : FilterExpr → α → Bool
  | .feq c v, r => L.colVal r c == some v
  | .fgt c v, r =>
    match L.colVal r c with
    | some w => Value.ltv v w
    | none => false
  | .flt c v, r =>
    match L.colVal r c with
    | some w => Value.ltv w v
    | none => false
  | .fmember c vs, r =>
    match L.colVal r c with
    | some w => vs.contains w
    | none => false
  | .fand a b, r => a.eval L r && b.eval L r

/-- A row passes when it satisfies every filter in the set (logical AND). -/
def passesAll (L : RecordLayout α) (filters : List FilterExpr) (r : α) : Bool :=
  filters.all fun fe => fe.eval L r

/-- Quote-tick record: timestamp plus price (fixed layout, immutable). -/
structure QuoteTick where
  t : Int
  p : Rat
deriving DecidableEq, Repr

/-- Layout of quote-tick files: integer column `t`, float column `p`. -/
def quoteLayout : RecordLayout QuoteTick where
  colType := fun c =>
    match c with
    | .t => some .cInt
    | .p => some .cFloat
    | .other _ => none
  colVal := fun r c =>
    match c with
    | .t => some (.vInt r.t)
    | .p => some (.vFloat r.p)
    | .other _ => none

/-- Bar record: timestamp plus open/high/low/close prices (fixed layout). -/
structure Bar where
  t : Int
  o : Rat
  h : Rat
  l : Rat
  c : Rat
deriving DecidableEq, Repr

/-- Layout of bar files: the timestamp column is filterable; the price
columns of the bar are payload only in this model. -/
def barLayout : RecordLayout Bar where
  colType := fun c =>
    match c with
    | .t => some .cInt
    | _ => none
  colVal := fun r c =>
    match c with
    | .t => some (.vInt r.t)
    | _ => none

/-- Modelled from the spec: what a path resolves to on durable storage —
missing, present but unparsable, or a well-formed columnar file carrying an
ordered row sequence. -/
inductive FileContent (α : Type) where
  | missing
  | corrupt
  | wellFormed (rows : List α)

/-- Durable storage: contents by path. -/
def Store (α : Type) := String → FileContent α

/-- Decode-time error taxonomy. -/
inductive DecodeError where
  | NotFound
  | SchemaMismatch
  | CorruptData
deriving DecidableEq, Repr

/-- Indexing error. -/
inductive IndexError where
  | IndexOutOfRange
deriving DecidableEq, Repr

/-- An observable storage effect of a decoder run. -/
inductive Effect (α : Type) where
  | readF (path : String)
  | writeF (path : String) (newContent : FileContent α)

/-- Whether an effect mutates storage. -/
def Effect.isWrite : Effect α → Bool
  | .readF _ => false
  | .writeF _ _ => true

/-- Applying an effect to the store: a read leaves it unchanged, a write
replaces the content at its path. -/
def applyEffect (store : Store α) : Effect α → Store α
  | .readF _ => store
  | .writeF q c => fun x => if x = q then c else store x

/-- Modelled from the spec: resolve a path against storage, recording the
read in the effect trace. -/
def readStorage (store : Store α) (path : String) :
    FileContent α × List (Effect α) :=
  (store path, [.readF path])

/-- Modelled from the spec: `decode(path, filter_exprs)` — the columnar
decoder behind `read_parquet_ticks` / `read_parquet_bars`, whose body is
absent from the tree.  It resolves the path (NotFound / CorruptData),
checks every filter against the schema (SchemaMismatch), and otherwise
returns the rows in on-disk order restricted to those satisfying all
filters, together with the effect trace of the run. -/
def decode (L : RecordLayout α) (store : Store α) (path : String)
    (filters : List FilterExpr) :
    Except DecodeError (List α) × List (Effect α) :=
  let res := readStorage store path
  (match res.1 with
    | .missing => .error .NotFound
    | .corrupt => .error .CorruptData
    | .wellFormed rows =>
      if filters.all (fun fe => fe.wellTyped L) then
        .ok (rows.filter (passesAll L filters))
      else
        .error .SchemaMismatch,
    res.2)

/-- Exported vector, the shallow embedding of the header's
`Vec_QuoteTick` / `Vec_Bar`: the record contents behind `ptr`, the `len`
field and the `cap` field. -/
structure Vec (α : Type) where
  buf : List α
  len : Nat
  cap : Nat
deriving DecidableEq, Repr

/-- A vector is well formed when the buffer holds exactly `len` records and
`len ≤ cap`. -/
def Vec.WellFormed (v : Vec α) : Prop :=
  v.buf.length = v.len ∧ v.len ≤ v.cap

/-- Modelled from the spec: `export(records)` — materialize the decoded
sequence into a buffer sized to the sequence length (the length is known up
front, so capacity equals length). -/
def exportRecords (rs : List α) : Vec α :=
  ⟨rs, rs.length, rs.length⟩

/-- Modelled from the spec: bounds-checked indexing into an exported vector,
the behavior behind `index_quote_tick_vector` / `index_bar_vector`: the
bound is checked defensively against `len`, never clamped. -/
def indexVec (v : Vec α) (i : Nat) : Except IndexError α :=
  if i < v.len then
    match v.buf.get? i with
    | some r => .ok r
    | none => .error .IndexOutOfRange
  else
    .error .IndexOutOfRange

/-- Conversion of a host-side integer to the unsigned machine integer
(`uintptr_t`, 64-bit) actually received by the indexing functions: the
two's-complement bit pattern read as unsigned. -/
def toUnsigned (i : Int) : Nat := (i % (2 : Int) ^ 64).toNat

/-- Header function `index_quote_tick_vector(const Vec_QuoteTick *, uintptr_t)`. -/
def index_quote_tick_vector (v : Vec QuoteTick) (i : Nat) :
    Except IndexError QuoteTick :=
  indexVec v i

/-- Header function `index_bar_vector(const Vec_Bar *, uintptr_t)`. -/
def index_bar_vector (v : Vec Bar) (i : Nat) : Except IndexError Bar :=
  indexVec v i

/-- Header function `read_parquet_ticks(path, filter_exprs)`: decode, then
export the decoded sequence as a `Vec_QuoteTick`. -/
def read_parquet_ticks (store : Store QuoteTick) (path : String)
    (filters : List FilterExpr) :
    Except DecodeError (Vec QuoteTick) × List (Effect QuoteTick) :=
  let d := decode quoteLayout store path filters
  (d.1.map exportRecords, d.2)

/-- Header function `read_parquet_bars(path, filter_exprs)`: decode, then
export the decoded sequence as a `Vec_Bar`. -/
def read_parquet_bars (store : Store Bar) (path : String)
    (filters : List FilterExpr) :
    Except DecodeError (Vec Bar) × List (Effect Bar) :=
  let d := decode barLayout store path filters
  (d.1.map exportRecords, d.2)

/-- One FFI index call in state-passing form: the vector is passed by
`const` pointer, so the call returns the lookup result together with the
vector state after the call, which the `const`-qualified implementation
never writes through. -/
def indexCallStep (v : Vec α) (i : Nat) : Except IndexError α × Vec α :=
  (indexVec v i, v)

/-- The spec scenario rows: a 3-row file `[(t=1,p=10.0),(t=2,p=20.0),(t=3,p=30.0)]`. -/
def scenarioRows : List QuoteTick := [⟨1, 10⟩, ⟨2, 20⟩, ⟨3, 30⟩]

/-- A store holding the scenario file at every path. -/
def scenarioStore : Store QuoteTick := fun _ => .wellFormed scenarioRows

/-- The spec scenario filter set: `p > 15.0`. -/
def scenarioFilters : List FilterExpr := [.fgt .p (.vFloat 15)]

/-- A store where every path is missing. -/
def emptyStore : Store QuoteTick := fun _ => .missing

/-- A store where every path resolves to an unparsable file. -/
def corruptStore : Store QuoteTick := fun _ => .corrupt

/-- A bar store holding one single-bar file at every path. -/
def barStore : Store Bar := fun _ => .wellFormed [⟨1, 2, 3, 1, 2⟩]

/-- Unfolding the result component of `decode`. -/
theorem decode_fst (L : RecordLayout α) (store : Store α) (path : String)
    (filters : List FilterExpr) :
    (decode L store path filters).1 =
      (match store path with
        | .missing => .error .NotFound
        | .corrupt => .error .CorruptData
        | .wellFormed rows =>
          if filters.all (fun fe => fe.wellTyped L) then
            .ok (rows.filter (passesAll L filters))
          else
            .error .SchemaMismatch) := rfl

/-- The effect trace of `decode` is a single read of the path. -/
theorem decode_snd (L : RecordLayout α) (store : Store α) (path : String)
    (filters : List FilterExpr) :
    (decode L store path filters).2 = [.readF path] := rfl

/-- A successful decode returns exactly the on-disk rows restricted to the
rows passing every filter. -/
theorem decode_ok_eq (L : RecordLayout α) (store : Store α) (path : String)
    (filters : List FilterExpr) (rows res : List α)
    (hst : store path = .wellFormed rows)
    (hok : (decode L store path filters).1 = .ok res) :
    res = rows.filter (passesAll L filters) := by
  have h2 : (decode L store path filters).1 =
      if filters.all (fun fe => fe.wellTyped L) then
        .ok (rows.filter (passesAll L filters))
      else
        .error .SchemaMismatch := by
    rw [decode_fst, hst]
  rw [h2] at hok
  by_cases hwt : filters.all (fun fe => fe.wellTyped L) = true
  · rw [if_pos hwt] at hok
    exact (Except.ok.inj hok).symm
  · rw [if_neg hwt] at hok
    cases hok

/-- Decode of a missing path. -/
theorem decode_fst_missing (L : RecordLayout α) (store : Store α)
    (path : String) (filters : List FilterExpr)
    (hst : store path = .missing) :
    (decode L store path filters).1 = .error .NotFound := by
  rw [decode_fst, hst]

/-- Decode of an unparsable file. -/
theorem decode_fst_corrupt (L : RecordLayout α) (store : Store α)
    (path : String) (filters : List FilterExpr)
    (hst : store path = .corrupt) :
    (decode L store path filters).1 = .error .CorruptData := by
  rw [decode_fst, hst]

/-- Decode of a well-formed file: schema check, then filtered rows. -/
theorem decode_fst_wellFormed (L : RecordLayout α) (store : Store α)
    (path : String) (filters : List FilterExpr) (rows : List α)
    (hst : store path = .wellFormed rows) :
    (decode L store path filters).1 =
      if filters.all (fun fe => fe.wellTyped L) then
        .ok (rows.filter (passesAll L filters))
      else
        .error .SchemaMismatch := by
  rw [decode_fst, hst]

/-- Indexing past `len` is defensively rejected. -/
theorem indexVec_oob (v : Vec α) (i : Nat) (h : v.len ≤ i) :
    indexVec v i = .error .IndexOutOfRange := by
  unfold indexVec
  rw [if_neg (by omega)]

/-- Indexing inside the bound of a well-sized buffer returns the record at
that position. -/
theorem indexVec_ok (v : Vec α) (hv : v.buf.length = v.len) (i : Nat)
    (hi : i < v.len) :
    ∃ hb : i < v.buf.length, indexVec v i = .ok (v.buf.get ⟨i, hb⟩) := by
  have hb : i < v.buf.length := by omega
  refine ⟨hb, ?_⟩
  unfold indexVec
  rw [if_pos hi, List.get?_eq_get hb]

/-- A successful index lookup returns a record stored in the buffer. -/
theorem indexVec_ok_mem (v : Vec α) (i : Nat) (r : α)
    (h : indexVec v i = .ok r) : r ∈ v.buf := by
  unfold indexVec at h
  split at h
  · cases hg : v.buf.get? i with
    | none => rw [hg] at h; cases h
    | some s =>
      rw [hg] at h
      cases h
      exact List.get?_mem hg
  · cases h

/-- A negative host integer, reinterpreted as unsigned, is at least as large
as any bound `k` with `k + |n| ≤ 2^64`. -/
theorem toUnsigned_neg_ge (n : Int) (hn : n < 0) (k : Nat)
    (hk : k + n.natAbs ≤ 2 ^ 64) : k ≤ toUnsigned n := by
  unfold toUnsigned
  omega

/-- C1: For every well-formed columnar file and every filter set, every
record returned by decode satisfies all filter predicates with the filters
combined by logical AND (soundness), every on-disk record satisfying all
predicates appears exactly as often in the result as on disk, hence each
matching row exactly once (completeness), non-matching records never appear,
and the spec's 3-row scenario with filter `p > 15.0` yields exactly
`[(t=2,p=20.0), (t=3,p=30.0)]`. -/
theorem decode_sound_complete (store : Store QuoteTick) (path : String)
    (filters : List FilterExpr) (rows res : List QuoteTick)
    (hst : store path = .wellFormed rows)
    (hok : (decode quoteLayout store path filters).1 = .ok res) :
    (∀ r ∈ res, ∀ fe ∈ filters, fe.eval quoteLayout r = true) ∧
    (∀ r : QuoteTick, passesAll quoteLayout filters r = true →
      res.count r = rows.count r) ∧
    (∀ r : QuoteTick, passesAll quoteLayout filters r = false → r ∉ res) ∧
    (decode quoteLayout scenarioStore "ticks" scenarioFilters).1 =
      .ok [⟨2, 20⟩, ⟨3, 30⟩] := by
  have hres := decode_ok_eq quoteLayout store path filters rows res hst hok
  subst hres
  refine ⟨?_, ?_, ?_, rfl⟩
  · intro r hr fe hfe
    have h1 := (List.mem_filter.mp hr).2
    simp only [passesAll] at h1
    exact List.all_eq_true.mp h1 fe hfe
  · intro r hpass
    exact List.count_filter hpass
  · intro r hpf hr
    have h1 := (List.mem_filter.mp hr).2
    rw [hpf] at h1
    exact Bool.false_ne_true h1

/-- Witness for C1 at the spec scenario. -/
theorem decode_sound_complete_witness :
    scenarioStore "ticks" = FileContent.wellFormed scenarioRows ∧
    (decode quoteLayout scenarioStore "ticks" scenarioFilters).1 =
      .ok [⟨2, 20⟩, ⟨3, 30⟩] ∧
    (∀ r ∈ ([⟨2, 20⟩, ⟨3, 30⟩] : List QuoteTick),
      ∀ fe ∈ scenarioFilters, fe.eval quoteLayout r = true) :=
  ⟨rfl, rfl,
    (decode_sound_complete scenarioStore "ticks" scenarioFilters scenarioRows
      [⟨2, 20⟩, ⟨3, 30⟩] rfl rfl).1⟩

/-- C2: export followed by index reproduces the i-th record of the decoded
sequence for every i in `[0, length)`, for quote-tick and bar vectors
alike: the exported buffer contents equal the decoder output in order. -/
theorem export_index_roundtrip (rs : List QuoteTick) (bs : List Bar)
    (i j : Nat) (hi : i < rs.length) (hj : j < bs.length) :
    index_quote_tick_vector (exportRecords rs) i = .ok (rs.get ⟨i, hi⟩) ∧
    index_bar_vector (exportRecords bs) j = .ok (bs.get ⟨j, hj⟩) := by
  constructor
  · obtain ⟨hb, h⟩ := indexVec_ok (exportRecords rs) rfl i hi
    exact h
  · obtain ⟨hb, h⟩ := indexVec_ok (exportRecords bs) rfl j hj
    exact h

/-- Witness for C2 on concrete vectors. -/
theorem export_index_roundtrip_witness :
    1 < scenarioRows.length ∧ 0 < ([⟨1, 2, 3, 1, 2⟩] : List Bar).length ∧
    index_quote_tick_vector (exportRecords scenarioRows) 1 = .ok ⟨2, 20⟩ ∧
    index_bar_vector (exportRecords [⟨1, 2, 3, 1, 2⟩]) 0 = .ok ⟨1, 2, 3, 1, 2⟩ := by
  refine ⟨by decide, by decide, ?_, ?_⟩
  · exact (export_index_roundtrip scenarioRows [⟨1, 2, 3, 1, 2⟩] 1 0
      (by decide) (by decide)).1
  · exact (export_index_roundtrip scenarioRows [⟨1, 2, 3, 1, 2⟩] 1 0
      (by decide) (by decide)).2

/-- C3: decode with an empty filter set returns every row of a well-formed
file in on-disk order, and in general the output of a successful decode is
a sublist of the on-disk rows, preserving their relative order, for
quote-tick and bar files alike. -/
theorem decode_empty_filters_order (storeq : Store QuoteTick)
    (storeb : Store Bar) (path : String) (rows : List QuoteTick)
    (brows : List Bar) (filters : List FilterExpr) (res : List QuoteTick)
    (bres : List Bar)
    (h1 : storeq path = .wellFormed rows)
    (h2 : storeb path = .wellFormed brows)
    (hq : (decode quoteLayout storeq path filters).1 = .ok res)
    (hb : (decode barLayout storeb path filters).1 = .ok bres) :
    (decode quoteLayout storeq path []).1 = .ok rows ∧
    (decode barLayout storeb path []).1 = .ok brows ∧
    res.Sublist rows ∧ bres.Sublist brows := by
  refine ⟨?_, ?_, ?_, ?_⟩
  · rw [decode_fst_wellFormed quoteLayout storeq path [] rows h1]
    have ht : ([].all fun fe => FilterExpr.wellTyped quoteLayout fe) = true := rfl
    rw [if_pos ht]
    congr 1
    exact List.filter_eq_self.mpr (fun a _ => rfl)
  · rw [decode_fst_wellFormed barLayout storeb path [] brows h2]
    have ht : ([].all fun fe => FilterExpr.wellTyped barLayout fe) = true := rfl
    rw [if_pos ht]
    congr 1
    exact List.filter_eq_self.mpr (fun a _ => rfl)
  · rw [decode_ok_eq quoteLayout storeq path filters rows res h1 hq]
    exact List.filter_sublist rows
  · rw [decode_ok_eq barLayout storeb path filters brows bres h2 hb]
    exact List.filter_sublist brows

/-- Witness for C3 on the scenario store and a one-bar store. -/
theorem decode_empty_filters_order_witness :
    scenarioStore "x" = FileContent.wellFormed scenarioRows ∧
    barStore "x" = FileContent.wellFormed [⟨1, 2, 3, 1, 2⟩] ∧
    (decode quoteLayout scenarioStore "x" [.fgt .t (.vInt 1)]).1 =
      .ok [⟨2, 20⟩, ⟨3, 30⟩] ∧
    (decode barLayout barStore "x" [.fgt .t (.vInt 1)]).1 = .ok [] ∧
    (decode quoteLayout scenarioStore "x" []).1 = .ok scenarioRows ∧
    List.Sublist [⟨2, 20⟩, ⟨3, 30⟩] scenarioRows := by
  refine ⟨rfl, rfl, rfl, rfl, ?_, ?_⟩
  · exact (decode_empty_filters_order scenarioStore barStore "x" scenarioRows
      [⟨1, 2, 3, 1, 2⟩] [.fgt .t (.vInt 1)] [⟨2, 20⟩, ⟨3, 30⟩] []
      rfl rfl rfl rfl).1
  · exact (decode_empty_filters_order scenarioStore barStore "x" scenarioRows
      [⟨1, 2, 3, 1, 2⟩] [.fgt .t (.vInt 1)] [⟨2, 20⟩, ⟨3, 30⟩] []
      rfl rfl rfl rfl).2.2.1

/-- C4: for every well-formed exported vector, indexing fails with
`IndexOutOfRange` exactly when the index is outside `[0, len)` — including
index `len` itself and any negative host integer received through the
unsigned boundary — and otherwise returns the record at position `i`; the
bound is checked defensively, never clamped. -/
theorem index_bounds (v : Vec QuoteTick) (w : Vec Bar)
    (hv : v.WellFormed) (hw : w.WellFormed) (i j : Nat) (n : Int)
    (hn : n < 0) (hnv : v.len + n.natAbs ≤ 2 ^ 64)
    (hnw : w.len + n.natAbs ≤ 2 ^ 64) :
    (index_quote_tick_vector v i = .error .IndexOutOfRange ↔ v.len ≤ i) ∧
    (index_bar_vector w j = .error .IndexOutOfRange ↔ w.len ≤ j) ∧
    index_quote_tick_vector v v.len = .error .IndexOutOfRange ∧
    index_bar_vector w w.len = .error .IndexOutOfRange ∧
    index_quote_tick_vector v (toUnsigned n) = .error .IndexOutOfRange ∧
    index_bar_vector w (toUnsigned n) = .error .IndexOutOfRange ∧
    (∀ hi : i < v.len, ∃ hb : i < v.buf.length,
      index_quote_tick_vector v i = .ok (v.buf.get ⟨i, hb⟩)) ∧
    (∀ hj : j < w.len, ∃ hb : j < w.buf.length,
      index_bar_vector w j = .ok (w.buf.get ⟨j, hb⟩)) := by
  refine ⟨?_, ?_, indexVec_oob v v.len (Nat.le_refl _),
    indexVec_oob w w.len (Nat.le_refl _),
    indexVec_oob v _ (toUnsigned_neg_ge n hn v.len hnv),
    indexVec_oob w _ (toUnsigned_neg_ge n hn w.len hnw),
    fun hi => indexVec_ok v hv.1 i hi, fun hj => indexVec_ok w hw.1 j hj⟩
  · constructor
    · intro he
      by_contra hlt
      have hlt2 := Nat.lt_of_not_le hlt
      obtain ⟨hb, hok⟩ := indexVec_ok v hv.1 i hlt2
      have he2 : indexVec v i = .error .IndexOutOfRange := he
      rw [hok] at he2
      cases he2
    · exact indexVec_oob v i
  · constructor
    · intro he
      by_contra hlt
      have hlt2 := Nat.lt_of_not_le hlt
      obtain ⟨hb, hok⟩ := indexVec_ok w hw.1 j hlt2
      have he2 : indexVec w j = .error .IndexOutOfRange := he
      rw [hok] at he2
      cases he2
    · exact indexVec_oob w j

/-- Witness for C4 on concrete exported vectors and host index `-1`. -/
theorem index_bounds_witness :
    (exportRecords scenarioRows).WellFormed ∧
    (exportRecords [(⟨1, 2, 3, 1, 2⟩ : Bar)]).WellFormed ∧
    (-1 : Int) < 0 ∧
    (exportRecords scenarioRows).len + (-1 : Int).natAbs ≤ 2 ^ 64 ∧
    (exportRecords [(⟨1, 2, 3, 1, 2⟩ : Bar)]).len + (-1 : Int).natAbs ≤ 2 ^ 64 ∧
    index_quote_tick_vector (exportRecords scenarioRows)
      (exportRecords scenarioRows).len = .error .IndexOutOfRange := by
  refine ⟨⟨rfl, Nat.le_refl _⟩, ⟨rfl, Nat.le_refl _⟩, by decide, by decide,
    by decide, ?_⟩
  exact (index_bounds (exportRecords scenarioRows)
    (exportRecords [(⟨1, 2, 3, 1, 2⟩ : Bar)]) ⟨rfl, Nat.le_refl _⟩
    ⟨rfl, Nat.le_refl _⟩ 1 0 (-1) (by decide) (by decide) (by decide)).2.2.1

/-- C5: decode fails with `NotFound` exactly when the path does not resolve,
with `CorruptData` exactly when the file cannot be parsed, with
`SchemaMismatch` exactly when some filter fails the schema check of a
well-formed file, and these three are the only decode-time failure classes. -/
theorem decode_error_taxonomy (store : Store QuoteTick) (path : String)
    (filters : List FilterExpr) :
    ((decode quoteLayout store path filters).1 = .error .NotFound ↔
      store path = .missing) ∧
    ((decode quoteLayout store path filters).1 = .error .CorruptData ↔
      store path = .corrupt) ∧
    ((decode quoteLayout store path filters).1 = .error .SchemaMismatch ↔
      (∃ rows, store path = .wellFormed rows ∧
        (filters.all fun fe => fe.wellTyped quoteLayout) = false)) ∧
    (∀ e, (decode quoteLayout store path filters).1 = .error e →
      e = .NotFound ∨ e = .SchemaMismatch ∨ e = .CorruptData) := by
  have hlast : ∀ e : DecodeError,
      e = .NotFound ∨ e = .SchemaMismatch ∨ e = .CorruptData := by
    intro e
    cases e
    · exact Or.inl rfl
    · exact Or.inr (Or.inl rfl)
    · exact Or.inr (Or.inr rfl)
  cases hsp : store path with
  | missing =>
    rw [decode_fst_missing quoteLayout store path filters hsp]
    exact ⟨by simp, by simp, by simp, fun e _ => hlast e⟩
  | corrupt =>
    rw [decode_fst_corrupt quoteLayout store path filters hsp]
    exact ⟨by simp, by simp, by simp, fun e _ => hlast e⟩
  | wellFormed rows =>
    rw [decode_fst_wellFormed quoteLayout store path filters rows hsp]
    by_cases hwt : (filters.all fun fe => fe.wellTyped quoteLayout) = true
    · rw [if_pos hwt]
      exact ⟨by simp, by simp, by simp [hwt], fun e _ => hlast e⟩
    · rw [if_neg hwt]
      rw [Bool.not_eq_true] at hwt
      exact ⟨by simp, by simp, by simp [hwt], fun e _ => hlast e⟩

/-- Witness for C5: the taxonomy instantiated at a store with no files. -/
theorem decode_error_taxonomy_witness :
    ((decode quoteLayout emptyStore "x" []).1 = .error .NotFound ↔
      emptyStore "x" = .missing) ∧
    ((decode quoteLayout emptyStore "x" []).1 = .error .CorruptData ↔
      emptyStore "x" = .corrupt) ∧
    ((decode quoteLayout emptyStore "x" []).1 = .error .SchemaMismatch ↔
      (∃ rows, emptyStore "x" = .wellFormed rows ∧
        (List.all ([] : List FilterExpr) fun fe => fe.wellTyped quoteLayout) =
          false)) ∧
    (∀ e, (decode quoteLayout emptyStore "x" []).1 = .error e →
      e = .NotFound ∨ e = .SchemaMismatch ∨ e = .CorruptData) :=
  decode_error_taxonomy emptyStore "x" []

/-- C6: every exported vector satisfies `len ≤ cap`, export sizes the buffer
so that `cap = len`, every vector produced by `read_parquet_ticks` /
`read_parquet_bars` satisfies this invariant, and indexing never consults or
changes the capacity (so it never reallocates or extends the buffer). -/
theorem export_capacity_invariant (rs : List QuoteTick)
    (storeq : Store QuoteTick) (storeb : Store Bar) (path : String)
    (filters : List FilterExpr) (v : Vec QuoteTick) (w : Vec Bar)
    (hv : (read_parquet_ticks storeq path filters).1 = .ok v)
    (hw : (read_parquet_bars storeb path filters).1 = .ok w)
    (u : Vec QuoteTick) (c i : Nat) :
    (exportRecords rs).len ≤ (exportRecords rs).cap ∧
    (exportRecords rs).cap = (exportRecords rs).len ∧
    v.len ≤ v.cap ∧ v.cap = v.len ∧
    w.len ≤ w.cap ∧ w.cap = w.len ∧
    indexVec ⟨u.buf, u.len, c⟩ i = indexVec u i := by
  have hv2 : ∃ res, v = exportRecords res := by
    have hm : (read_parquet_ticks storeq path filters).1 =
        Except.map exportRecords (decode quoteLayout storeq path filters).1 := rfl
    rw [hm] at hv
    cases hd : (decode quoteLayout storeq path filters).1 with
    | error e => rw [hd] at hv; cases hv
    | ok res =>
      rw [hd] at hv
      exact ⟨res, (Except.ok.inj hv).symm⟩
  have hw2 : ∃ res, w = exportRecords res := by
    have hm : (read_parquet_bars storeb path filters).1 =
        Except.map exportRecords (decode barLayout storeb path filters).1 := rfl
    rw [hm] at hw
    cases hd : (decode barLayout storeb path filters).1 with
    | error e => rw [hd] at hw; cases hw
    | ok res =>
      rw [hd] at hw
      exact ⟨res, (Except.ok.inj hw).symm⟩
  obtain ⟨res, hres⟩ := hv2
  obtain ⟨bres, hbres⟩ := hw2
  subst hres
  subst hbres
  exact ⟨Nat.le_refl _, rfl, Nat.le_refl _, rfl, Nat.le_refl _, rfl, rfl⟩

/-- Witness for C6 on the scenario stores with empty filter sets. -/
theorem export_capacity_invariant_witness :
    (read_parquet_ticks scenarioStore "x" []).1 = .ok (exportRecords scenarioRows) ∧
    (read_parquet_bars barStore "x" []).1 =
      .ok (exportRecords [(⟨1, 2, 3, 1, 2⟩ : Bar)]) ∧
    (exportRecords scenarioRows).len ≤ (exportRecords scenarioRows).cap ∧
    (exportRecords scenarioRows).cap = (exportRecords scenarioRows).len := by
  refine ⟨rfl, rfl, ?_, ?_⟩
  · exact (export_capacity_invariant scenarioRows scenarioStore barStore "x" []
      (exportRecords scenarioRows) (exportRecords [(⟨1, 2, 3, 1, 2⟩ : Bar)])
      rfl rfl ⟨[], 0, 5⟩ 7 0).1
  · exact (export_capacity_invariant scenarioRows scenarioStore barStore "x" []
      (exportRecords scenarioRows) (exportRecords [(⟨1, 2, 3, 1, 2⟩ : Bar)])
      rfl rfl ⟨[], 0, 5⟩ 7 0).2.1

/-- C7: decode is all-or-nothing — for every input it performs exactly one
read of the path (no internal retries) and either returns the complete
filtered sequence or surfaces a taxonomy error synchronously; there is no
partial-result-plus-error outcome. -/
theorem decode_atomic (store : Store QuoteTick) (path : String)
    (filters : List FilterExpr) :
    (decode quoteLayout store path filters).2 = [.readF path] ∧
    ((∃ rows, store path = .wellFormed rows ∧
        (filters.all fun fe => fe.wellTyped quoteLayout) = true ∧
        (decode quoteLayout store path filters).1 =
          .ok (rows.filter (passesAll quoteLayout filters))) ∨
      (∃ e, (decode quoteLayout store path filters).1 = .error e)) := by
  refine ⟨rfl, ?_⟩
  cases hsp : store path with
  | missing => exact Or.inr ⟨.NotFound, decode_fst_missing _ _ _ _ hsp⟩
  | corrupt => exact Or.inr ⟨.CorruptData, decode_fst_corrupt _ _ _ _ hsp⟩
  | wellFormed rows =>
    by_cases hwt : (filters.all fun fe => fe.wellTyped quoteLayout) = true
    · refine Or.inl ⟨rows, rfl, hwt, ?_⟩
      rw [decode_fst_wellFormed _ _ _ _ rows hsp, if_pos hwt]
    · refine Or.inr ⟨.SchemaMismatch, ?_⟩
      rw [decode_fst_wellFormed _ _ _ _ rows hsp, if_neg hwt]

/-- Witness for C7 instantiated at the spec scenario. -/
theorem decode_atomic_witness :
    (decode quoteLayout scenarioStore "ticks" scenarioFilters).2 =
      [.readF "ticks"] ∧
    ((∃ rows, scenarioStore "ticks" = .wellFormed rows ∧
        (scenarioFilters.all fun fe => fe.wellTyped quoteLayout) = true ∧
        (decode quoteLayout scenarioStore "ticks" scenarioFilters).1 =
          .ok (rows.filter (passesAll quoteLayout scenarioFilters))) ∨
      (∃ e, (decode quoteLayout scenarioStore "ticks" scenarioFilters).1 =
        .error e)) :=
  decode_atomic scenarioStore "ticks" scenarioFilters

/-- C8: decode never mutates the source file: its effect trace contains no
write, and replaying the trace against the store leaves every path's content
unchanged, on success and on failure alike, for tick and bar decodes. -/
theorem decode_no_mutation (storeq : Store QuoteTick) (storeb : Store Bar)
    (path : String) (filters : List FilterExpr) :
    (∀ e ∈ (decode quoteLayout storeq path filters).2, e.isWrite = false) ∧
    List.foldl applyEffect storeq (decode quoteLayout storeq path filters).2 =
      storeq ∧
    (∀ e ∈ (decode barLayout storeb path filters).2, e.isWrite = false) ∧
    List.foldl applyEffect storeb (decode barLayout storeb path filters).2 =
      storeb := by
  refine ⟨?_, rfl, ?_, rfl⟩
  · intro e he
    rw [decode_snd] at he
    simp only [List.mem_singleton] at he
    subst he
    rfl
  · intro e he
    rw [decode_snd] at he
    simp only [List.mem_singleton] at he
    subst he
    rfl

/-- Witness for C8 on a missing path, where decode fails. -/
theorem decode_no_mutation_witness :
    (∀ e ∈ (decode quoteLayout emptyStore "gone" []).2, e.isWrite = false) ∧
    List.foldl applyEffect emptyStore (decode quoteLayout emptyStore "gone" []).2 =
      emptyStore ∧
    (∀ e ∈ (decode barLayout barStore "gone" []).2, e.isWrite = false) ∧
    List.foldl applyEffect barStore (decode barLayout barStore "gone" []).2 =
      barStore :=
  decode_no_mutation emptyStore barStore "gone" []

/-- C9: the index parameter of the two indexing functions is an unsigned
machine integer, so every received index is nonnegative; a negative
host-side integer arrives as a large unsigned value, which is at least the
vector length and therefore falls under the `i ≥ length` failure case — the
only expressible out-of-range case. -/
theorem index_unsigned_boundary (v : Vec QuoteTick) (w : Vec Bar)
    (n : Int) (m : Nat) (hv : v.WellFormed)
    (hn : n < 0) (hnv : v.len + n.natAbs ≤ 2 ^ 64)
    (hnw : w.len + n.natAbs ≤ 2 ^ 64) :
    0 ≤ (toUnsigned n : Int) ∧
    v.len ≤ toUnsigned n ∧ w.len ≤ toUnsigned n ∧
    index_quote_tick_vector v (toUnsigned n) = .error .IndexOutOfRange ∧
    index_bar_vector w (toUnsigned n) = .error .IndexOutOfRange ∧
    (index_quote_tick_vector v m = .error .IndexOutOfRange → v.len ≤ m) := by
  refine ⟨by omega, toUnsigned_neg_ge n hn v.len hnv,
    toUnsigned_neg_ge n hn w.len hnw,
    indexVec_oob v _ (toUnsigned_neg_ge n hn v.len hnv),
    indexVec_oob w _ (toUnsigned_neg_ge n hn w.len hnw), ?_⟩
  intro he
  by_contra hlt
  have hlt2 := Nat.lt_of_not_le hlt
  obtain ⟨hb, hok⟩ := indexVec_ok v hv.1 m hlt2
  have he2 : indexVec v m = .error .IndexOutOfRange := he
  rw [hok] at he2
  cases he2

/-- Witness for C9 on concrete vectors and host index `-1`. -/
theorem index_unsigned_boundary_witness :
    (exportRecords scenarioRows).WellFormed ∧
    (-1 : Int) < 0 ∧
    (exportRecords scenarioRows).len + (-1 : Int).natAbs ≤ 2 ^ 64 ∧
    (exportRecords [(⟨1, 2, 3, 1, 2⟩ : Bar)]).len + (-1 : Int).natAbs ≤ 2 ^ 64 ∧
    index_quote_tick_vector (exportRecords scenarioRows) (toUnsigned (-1)) =
      .error .IndexOutOfRange := by
  refine ⟨⟨rfl, Nat.le_refl _⟩, by decide, by decide, by decide, ?_⟩
  exact (index_unsigned_boundary (exportRecords scenarioRows)
    (exportRecords [(⟨1, 2, 3, 1, 2⟩ : Bar)]) (-1) 0 ⟨rfl, Nat.le_refl _⟩
    (by decide) (by decide) (by decide)).2.2.2.1

/-- C10: indexing is read-only — the FFI call step returns the vector with
`buf`, `len` and `cap` unchanged, its result is exactly the pure lookup of
the header functions, and a successful lookup returns a record already
stored in the buffer, never a mutation of it. -/
theorem index_const_read_only (v : Vec QuoteTick) (w : Vec Bar)
    (i j : Nat) :
    (indexCallStep v i).2 = v ∧
    (indexCallStep v i).2.buf = v.buf ∧
    (indexCallStep v i).2.len = v.len ∧
    (indexCallStep v i).2.cap = v.cap ∧
    (indexCallStep w j).2 = w ∧
    (indexCallStep v i).1 = index_quote_tick_vector v i ∧
    (indexCallStep w j).1 = index_bar_vector w j ∧
    (∀ r, (indexCallStep v i).1 = .ok r → r ∈ v.buf) ∧
    (∀ r, (indexCallStep w j).1 = .ok r → r ∈ w.buf) := by
  refine ⟨rfl, rfl, rfl, rfl, rfl, rfl, rfl, ?_, ?_⟩
  · intro r h
    exact indexVec_ok_mem v i r h
  · intro r h
    exact indexVec_ok_mem w j r h

/-- Witness for C10 on concrete vectors. -/
theorem index_const_read_only_witness :
    (indexCallStep (exportRecords scenarioRows) 0).2 = exportRecords scenarioRows ∧
    (indexCallStep (exportRecords [(⟨1, 2, 3, 1, 2⟩ : Bar)]) 0).2 =
      exportRecords [(⟨1, 2, 3, 1, 2⟩ : Bar)] ∧
    (∀ r, (indexCallStep (exportRecords scenarioRows) 0).1 = .ok r →
      r ∈ (exportRecords scenarioRows).buf) := by
  refine ⟨?_, ?_, ?_⟩
  · exact (index_const_read_only (exportRecords scenarioRows)
      (exportRecords [(⟨1, 2, 3, 1, 2⟩ : Bar)]) 0 0).1
  · exact (index_const_read_only (exportRecords scenarioRows)
      (exportRecords [(⟨1, 2, 3, 1, 2⟩ : Bar)]) 0 0).2.2.2.2.1
  · exact (index_const_read_only (exportRecords scenarioRows)
      (exportRecords [(⟨1, 2, 3, 1, 2⟩ : Bar)]) 0 0).2.2.2.2.2.2.2.1

end Persistence
